import Mathlib

/-!
Shallow embedding of the `electron-reload-esm` development-time reload
orchestrator (`src/main.js`) and verification of the frozen claims about it.

The embedding follows the source file closely:

* `testIgnoredPaths` models the module-level constant regex
  `node_modules|[/\\]\.` (line 9), as a decidable test on path strings.
* `jsIndexOf`, `jsSplice1`, `onWindowClosed` model the window-registry
  removal code `browserWindows.splice(browserWindows.indexOf(bw), 1)`
  (lines 85-86) with JavaScript semantics for `indexOf` (returns -1 when
  absent) and `splice` (a negative start counts back from the end).
* `createHardresetHandler` models the function of the same name
  (lines 40-62): the spawn argument list and the termination action.
* `electronReloadInit` models the synchronous body of `electronReload`
  (lines 64-111): creation of the general watcher, the executable
  existence check and its throw, creation of the hard watcher, and the
  `forceHardReset` branch.  The file-system existence test and the glob
  matcher of the external watching engine are parameters.
* `step` / `runEvents` deliver change and window-lifecycle events to a
  session state and collect the observable effects (soft-reload sweeps,
  spawn calls, termination actions).
-/

namespace ElectronReload

/-- One entry of a chokidar `ignored` list as used by `main.js`: either the
module-level regex `node_modules|[/\\]\.` (line 9) or a literal path
string (the entry file, line 66). -/
inductive Matcher where
  | regexIgnoredPaths
  | exactPath (q : String)
  deriving DecidableEq, Repr

/-- Is the character a path separator, as in the character class of the
regex on line 9 of `main.js`. -/
def isSep (c : Char) : Bool := c == '/' || c == '\\'

/-- Decidable list-prefix test (helper for substring search). -/
def isPref : List Char → List Char → Bool
  | [], _ => true
  | _ :: _, [] => false
  | a :: as, b :: bs => a == b && isPref as bs

/-- Does `pat` occur contiguously inside the second list (substring test,
as regex alternative matching does). -/
def containsSeq (pat : List Char) : List Char → Bool
  | [] => isPref pat []
  | c :: rest => isPref pat (c :: rest) || containsSeq pat rest

/-- Does the character list contain a separator immediately followed by a
dot — the `[/\\]\.` alternative of the regex on line 9. -/
def hasSlashDot : List Char → Bool
  | [] => false
  | [_] => false
  | a :: b :: rest => (isSep a && b == '.') || hasSlashDot (b :: rest)

/-- The regex `ignoredPaths = /node_modules|[/\\]\./` of `main.js` line 9,
as a test on a candidate path. -/
def testIgnoredPaths (p : String) : Bool :=
  containsSeq "node_modules".data p.data || hasSlashDot p.data

/-- Matching one `ignored` entry against a path. -/
def matcherTest : Matcher → String → Bool
  | Matcher.regexIgnoredPaths, p => testIgnoredPaths p
  | Matcher.exactPath q, p => q == p

/-- Matching a whole `ignored` list against a path (the watching engine
ignores the path when any entry matches). -/
def anymatch (ms : List Matcher) (p : String) : Bool :=
  ms.any (fun m => matcherTest m p)

/-- The default `ignored` list of the general watcher
(`[ignoredPaths, mainFile]`, line 66 of `main.js`). -/
def generalDefaultIgnored (mainFile : String) : List Matcher :=
  [Matcher.regexIgnoredPaths, Matcher.exactPath mainFile]

/-- The default `ignored` list of the hard watcher
(`[ignoredPaths]`, line 100 of `main.js`). -/
def hardDefaultIgnored : List Matcher :=
  [Matcher.regexIgnoredPaths]

/-- JavaScript `Array.prototype.indexOf`: index of the first occurrence,
or -1 when absent (line 85 of `main.js`). -/
def jsIndexOf : List Nat → Nat → Int
  | [], _ => -1
  | x :: rest, w =>
    if x = w then 0
    else
      let r := jsIndexOf rest w
      if r = -1 then -1 else r + 1

/-- JavaScript `Array.prototype.splice(start, 1)`: a negative `start`
counts back from the end (clamped at 0), then at most one element at the
normalized position is deleted (line 86 of `main.js`). -/
def jsSplice1 (l : List Nat) (start : Int) : List Nat :=
  let len : Int := l.length
  let s : Int := if start < 0 then max (len + start) 0 else min start len
  l.take s.toNat ++ l.drop (s.toNat + 1)

/-- The window-registry removal performed by the `closed` handler
(lines 84-87 of `main.js`):
`browserWindows.splice(browserWindows.indexOf(bw), 1)`. -/
def onWindowClosed (l : List Nat) (w : Nat) : List Nat :=
  jsSplice1 l (jsIndexOf l w)

/-- How the current process is terminated by the hard-reset handler:
`app.exit()` or `app.quit()` (lines 57-61 of `main.js`). -/
inductive TermAction where
  | exit
  | quit
  deriving DecidableEq, Repr

/-- One observable `spawn(executable, args, {detached, stdio})` call
(lines 47-50 of `main.js`). -/
structure SpawnCall where
  exe : String
  args : List String
  detached : Bool
  deriving DecidableEq, Repr

/-- `createHardresetHandler` (lines 40-62 of `main.js`): builds the spawn
argument list `(eArgv || []).concat([appPath]).concat(aArgv || [])` and
terminates via `app.exit()` when the method is the string `exit`,
otherwise via `app.quit()`.  Returns the observable effect of one
invocation of the handler. -/
def createHardresetHandler (eXecutable : String) (hardResetMethod : Option String)
    (eArgv aArgv : Option (List String)) (appPath : String) :
    SpawnCall × TermAction :=
  (⟨eXecutable, eArgv.getD [] ++ [appPath] ++ aArgv.getD [], true⟩,
   if hardResetMethod = some "exit" then TermAction.exit else TermAction.quit)

/-- The recognized options of `electronReload(glob, options)` (lines 64,
72-77, 100-102 of `main.js`): `electron` (executable path), the hard
reset method, the two argument lists, `forceHardReset`, and a
user-supplied `ignored` list which — via
`Object.assign({ignored: ...}, options)` — replaces the default when the
key is present. -/
structure Options where
  electron : Option String
  hardResetMethod : Option String
  electronArgv : Option (List String)
  appArgv : Option (List String)
  forceHardReset : Option Bool
  ignored : Option (List Matcher)
  deriving DecidableEq, Repr

/-- The state of the general (soft-reset) watcher
(`chokidar.watch(glob, ...)`, line 66): its watched patterns, its
effective `ignored` list, and whether `close()` has been called. -/
structure GWatcher where
  paths : List String
  ignored : List Matcher
  closed : Bool
  deriving DecidableEq, Repr

/-- The state of the hard-reset watcher
(`chokidar.watch(mainFile, ...)`, line 100): watched patterns, effective
`ignored` list, whether the `once` subscription is still armed
(line 109), and the configuration captured by the handler closure. -/
structure HWatcher where
  paths : List String
  ignored : List Matcher
  armed : Bool
  exe : String
  method : Option String
  eArgv : Option (List String)
  aArgv : Option (List String)
  deriving DecidableEq, Repr

/-- The outcome of the synchronous body of `electronReload`: the error
thrown, when any (`thrown`), the general watcher — which is created on
line 66 before the executable check runs — and the hard watcher, when
one was created. -/
structure InitOutcome where
  thrown : Option String
  general : GWatcher
  hard : Option HWatcher
  deriving DecidableEq, Repr

/-- The message of the throw on line 97 of `main.js`. -/
def errorMsg : String :=
  "Provided electron executable cannot be found or is not executable!"

/-- The synchronous body of `electronReload(glob, options)`
(lines 64-111 of `main.js`), in source order:

1. line 66: the general watcher is created over `glob` with
   `Object.assign({ignored: [ignoredPaths, mainFile]}, options)` — a
   user-supplied `ignored` key overwrites the default list;
2. line 95: if `options.electron` is absent, nothing further happens;
3. lines 96-98: otherwise, if the executable does not exist,
   `new Error(...)` is thrown — at this point the general watcher from
   step 1 already exists and has not been closed;
4. line 100: the hard watcher is created over `mainFile` with
   `Object.assign({ignored: [ignoredPaths]}, options)`;
5. lines 102-107: if `options.forceHardReset === true`, the hard watcher
   additionally watches `glob` and the general watcher is closed;
6. line 109: `hardWatcher.once('change', hardResetHandler)` arms the
   one-shot subscription.

`fsExists` abstracts `fs.existsSync`. -/
def electronReloadInit (glob : String) (opts : Options) (mainFile : String)
    (fsExists : String → Bool) : InitOutcome :=
  let general0 : GWatcher :=
    ⟨[glob], opts.ignored.getD (generalDefaultIgnored mainFile), false⟩
  match opts.electron with
  | none => ⟨none, general0, none⟩
  | some exe =>
    if fsExists exe then
      let hard0 : HWatcher :=
        ⟨[mainFile], opts.ignored.getD hardDefaultIgnored, true,
         exe, opts.hardResetMethod, opts.electronArgv, opts.appArgv⟩
      if opts.forceHardReset = some true then
        ⟨none, { general0 with closed := true },
         some { hard0 with paths := [mainFile, glob] }⟩
      else
        ⟨none, general0, some hard0⟩
    else
      ⟨some errorMsg, general0, none⟩

/-- A running watch session: the two watchers, the live window set
(`browserWindows`, line 65), and the application root path captured by
the hard-reset handler (`appPath`, line 8). -/
structure Session where
  general : GWatcher
  hard : Option HWatcher
  windows : List Nat
  appPath : String
  deriving DecidableEq, Repr

/-- The session right after a successful `electronReload` call: watchers
from the init outcome, empty live window set. -/
def mkSession (o : InitOutcome) (appPath : String) : Session :=
  ⟨o.general, o.hard, [], appPath⟩

/-- Observable effects of delivering events to a session: soft-reload
sweeps (each listing the windows reloaded, in order), spawn calls, and
termination actions. -/
structure Effects where
  reloads : List (List Nat)
  spawns : List SpawnCall
  terms : List TermAction
  deriving DecidableEq, Repr

/-- Does the general watcher deliver a change at path `p` to its handler:
it is not closed, some watched pattern matches `p` under the engine glob
matcher `gm`, and no `ignored` entry matches `p`. -/
def gwFires (gm : String → String → Bool) (g : GWatcher) (p : String) : Bool :=
  !g.closed && g.paths.any (fun pat => gm pat p) && !anymatch g.ignored p

/-- Does the hard watcher deliver a change at path `p` to its one-shot
handler: it is still armed, some watched pattern matches, and no
`ignored` entry matches. -/
def hwFires (gm : String → String → Bool) (h : HWatcher) (p : String) : Bool :=
  h.armed && h.paths.any (fun pat => gm pat p) && !anymatch h.ignored p

/-- After its one-shot handler ran, the `once` subscription is inert
(line 109 of `main.js`). -/
def disarm (h : HWatcher) : HWatcher := { h with armed := false }

/-- Delivery of one file-change event at path `p`: the general watcher,
when it fires, runs `softResetHandler` (line 70) — one reload sweep over
the current live window set; the hard watcher, when it fires, runs the
hard-reset handler once and is disarmed. -/
def deliverChange (gm : String → String → Bool) (s : Session) (p : String) :
    Session × Effects :=
  let soft : List (List Nat) := if gwFires gm s.general p then [s.windows] else []
  match s.hard with
  | none => (s, ⟨soft, [], []⟩)
  | some h =>
    if hwFires gm h p then
      let act := createHardresetHandler h.exe h.method h.eArgv h.aArgv s.appPath
      ({ s with hard := some (disarm h) }, ⟨soft, [act.1], [act.2]⟩)
    else
      (s, ⟨soft, [], []⟩)

/-- The events a session reacts to: a file change, a window-created
notification (line 80), a window-closed notification (line 84). -/
inductive Event where
  | change (p : String)
  | winCreated (w : Nat)
  | winClosed (w : Nat)
  deriving DecidableEq, Repr

/-- One event step of a session. -/
def step (gm : String → String → Bool) (s : Session) : Event → Session × Effects
  | Event.change p => deliverChange gm s p
  | Event.winCreated w => ({ s with windows := s.windows ++ [w] }, ⟨[], [], []⟩)
  | Event.winClosed w => ({ s with windows := onWindowClosed s.windows w }, ⟨[], [], []⟩)

/-- Deliver a list of events in order, concatenating the effects. -/
def runEvents (gm : String → String → Bool) (s : Session) :
    List Event → Session × Effects
  | [] => (s, ⟨[], [], []⟩)
  | e :: rest =>
    let r1 := step gm s e
    let r2 := runEvents gm r1.1 rest
    (r2.1, ⟨r1.2.reloads ++ r2.2.reloads, r1.2.spawns ++ r2.2.spawns,
            r1.2.terms ++ r2.2.terms⟩)

/-- Is the one-shot hard subscription of the session still armed. -/
def sessionArmed (s : Session) : Bool :=
  match s.hard with
  | none => false
  | some h => h.armed

/-- Does the session have a hard watcher whose watched patterns are
exactly `ps`. -/
def hardPathsAre (o : Option HWatcher) (ps : List String) : Bool :=
  match o with
  | none => false
  | some h => h.paths == ps

/-- Is the `ignored` list of the hard watcher, when one exists, exactly
`l`. -/
def hardIgnoredIs (o : Option HWatcher) (l : List Matcher) : Bool :=
  match o with
  | none => true
  | some h => h.ignored == l

/-- Split a character list into path segments at `/` and `\`
separators (spec vocabulary for stating C7; the source itself works with
the regex, not with segments). -/
def splitSegs : List Char → List (List Char)
  | [] => [[]]
  | c :: rest =>
    if isSep c then [] :: splitSegs rest
    else
      match splitSegs rest with
      | [] => [[c]]
      | s :: t => (c :: s) :: t

/-- Spec vocabulary: the path has a whole segment named `node_modules`
(a path segment named for a dependency-cache directory). -/
def specNodeModulesSegment (p : String) : Bool :=
  (splitSegs p.data).any (fun s => s == "node_modules".data)

/-- Spec vocabulary, following the words of C7: the path contains a
dot-prefixed segment (hidden/config file). -/
def specDotPrefixedSegment (p : String) : Bool :=
  (splitSegs p.data).any (fun s =>
    match s with
    | c :: _ => c == '.'
    | [] => false)

/-- C1: the spec says `onWindowClosed` on a handle that is not (or no
longer) in the live set is a silent no-op that removes no other entry.
The code computes `indexOf = -1` and `splice(-1, 1)` then removes the
LAST entry: with live set `[10, 20]`, closing the absent handle `30`
leaves `[10]` — the unrelated entry `20` has been removed. -/
theorem C1_close_absent_removes_last :
    onWindowClosed [10, 20] 30 = [10] := by decide

/-- C3: the hard-reset handler spawns the executable with argument list
exactly `hostProcessArgs ++ [applicationRootPath] ++ appArgs`; in
particular `["--inspect"] ++ ["/app"] ++ ["--flag"]` gives
`["--inspect", "/app", "--flag"]`. -/
theorem C3_spawn_args (exe appPath : String) (m : Option String)
    (eArgv aArgv : Option (List String)) :
    (createHardresetHandler exe m eArgv aArgv appPath).1.args
        = eArgv.getD [] ++ [appPath] ++ aArgv.getD [] ∧
    (createHardresetHandler exe m (some ["--inspect"]) (some ["--flag"]) "/app").1.args
        = ["--inspect", "/app", "--flag"] :=
  ⟨rfl, rfl⟩

/-- C6: the hard-reset handler terminates by the immediate `app.exit()`
call exactly when the configured method equals the string `exit`; every
other value, the absent default included, terminates by the graceful
`app.quit()`. -/
theorem C6_reset_method (exe appPath : String) (m : Option String)
    (eArgv aArgv : Option (List String)) :
    (createHardresetHandler exe m eArgv aArgv appPath).2
        = (if m = some "exit" then TermAction.exit else TermAction.quit) ∧
    (createHardresetHandler exe none eArgv aArgv appPath).2 = TermAction.quit := by
  refine ⟨rfl, ?_⟩
  simp [createHardresetHandler]

/-- An event step never modifies the general watcher. -/
theorem step_general_eq (gm : String → String → Bool) (s : Session) (e : Event) :
    (step gm s e).1.general = s.general := by
  cases e with
  | change p =>
    simp only [step, deliverChange]
    cases s.hard with
    | none => rfl
    | some h =>
      by_cases hf : hwFires gm h p = true
      · simp [hf]
      · simp [hf]
  | winCreated w => rfl
  | winClosed w => rfl

/-- A closed general watcher delivers no soft-reload sweep on any event. -/
theorem step_reloads_closed (gm : String → String → Bool) (s : Session) (e : Event)
    (h : s.general.closed = true) : (step gm s e).2.reloads = [] := by
  cases e with
  | change p =>
    simp only [step, deliverChange, gwFires, h]
    cases s.hard with
    | none => rfl
    | some hw =>
      by_cases hf : hwFires gm hw p = true
      · simp [hf]
      · simp [hf]
  | winCreated w => rfl
  | winClosed w => rfl

/-- With the general watcher closed, no event sequence ever produces a
soft-reload sweep. -/
theorem runEvents_reloads_closed (gm : String → String → Bool) (es : List Event) :
    ∀ s : Session, s.general.closed = true →
      (runEvents gm s es).2.reloads = [] := by
  induction es with
  | nil => intro s _; rfl
  | cons e rest ih =>
    intro s h
    have h1 := step_reloads_closed gm s e h
    have h2 : (step gm s e).1.general.closed = true := by
      rw [step_general_eq]; exact h
    simp only [runEvents, h1, ih _ h2, List.nil_append]

/-- A disarmed (or absent) hard subscription spawns nothing and stays
disarmed on any event step. -/
theorem step_unarmed (gm : String → String → Bool) (s : Session) (e : Event)
    (h : sessionArmed s = false) :
    (step gm s e).2.spawns = [] ∧ sessionArmed (step gm s e).1 = false := by
  cases e with
  | change p =>
    simp only [step, deliverChange]
    cases hh : s.hard with
    | none => exact ⟨rfl, by simp [sessionArmed, hh]⟩
    | some hw =>
      have ha : hw.armed = false := by
        simpa [sessionArmed, hh] using h
      have hf : hwFires gm hw p = false := by
        simp [hwFires, ha]
      simp [hf, sessionArmed, hh, ha]
  | winCreated w => exact ⟨rfl, by simpa [step, sessionArmed] using h⟩
  | winClosed w => exact ⟨rfl, by simpa [step, sessionArmed] using h⟩

/-- With the hard subscription disarmed (or absent), no event sequence
ever produces a spawn. -/
theorem runEvents_spawns_unarmed (gm : String → String → Bool) (es : List Event) :
    ∀ s : Session, sessionArmed s = false →
      (runEvents gm s es).2.spawns = [] := by
  induction es with
  | nil => intro s _; rfl
  | cons e rest ih =>
    intro s h
    obtain ⟨h1, h2⟩ := step_unarmed gm s e h
    simp only [runEvents, h1, ih _ h2, List.nil_append]

/-- C2 (counterexample): with executable path `/nonexistent` absent from
the file system, initialization does throw the configuration error, but
the general watcher — created on line 66, before the check on line 96 —
exists, watches the glob, and is not closed when the throw happens, so
a watcher IS left created and running, contrary to the claim. -/
theorem C2_counterexample :
    (electronReloadInit "src" ⟨some "/nonexistent", none, none, none, none, none⟩
        "/app/index.js" (fun _ => false)).thrown = some errorMsg ∧
    (electronReloadInit "src" ⟨some "/nonexistent", none, none, none, none, none⟩
        "/app/index.js" (fun _ => false)).general.paths = ["src"] ∧
    (electronReloadInit "src" ⟨some "/nonexistent", none, none, none, none, none⟩
        "/app/index.js" (fun _ => false)).general.closed = false := by
  refine ⟨rfl, rfl, rfl⟩

/-- C2 (amended): for every configuration whose declared executable path
does not reference an existing file, initialization throws the
configuration error synchronously and no hard-reset watcher is created;
however the general watcher has already been created (line 66 precedes
the check of line 96) and is left open, not closed, when the error is
thrown. -/
theorem C2_config_error (glob mainFile exe : String) (opts : Options)
    (fsExists : String → Bool)
    (he : opts.electron = some exe) (hfs : fsExists exe = false) :
    (electronReloadInit glob opts mainFile fsExists).thrown = some errorMsg ∧
    (electronReloadInit glob opts mainFile fsExists).hard = none ∧
    (electronReloadInit glob opts mainFile fsExists).general.paths = [glob] ∧
    (electronReloadInit glob opts mainFile fsExists).general.closed = false := by
  simp [electronReloadInit, he, hfs]

/-- Witness for C2: the amended statement at concrete inputs. -/
theorem C2_config_error_witness :
    (electronReloadInit "src" ⟨some "/nonexistent", none, none, none, none, none⟩
        "/m" (fun _ => false)).thrown = some errorMsg ∧
    (electronReloadInit "src" ⟨some "/nonexistent", none, none, none, none, none⟩
        "/m" (fun _ => false)).hard = none ∧
    (electronReloadInit "src" ⟨some "/nonexistent", none, none, none, none, none⟩
        "/m" (fun _ => false)).general.paths = ["src"] ∧
    (electronReloadInit "src" ⟨some "/nonexistent", none, none, none, none, none⟩
        "/m" (fun _ => false)).general.closed = false :=
  C2_config_error "src" "/m" "/nonexistent" _ _ rfl rfl

/-- C9: with `forceHardReset` set but no executable, initialization is a
no-op with respect to the flag: the whole outcome equals the outcome of
the same configuration with the flag false, the general watcher stays
open, no hard watcher is created, and nothing is thrown. -/
theorem C9_force_without_exec (glob mainFile : String) (opts : Options)
    (fsExists : String → Bool) (he : opts.electron = none) :
    electronReloadInit glob { opts with forceHardReset := some true } mainFile fsExists
        = electronReloadInit glob { opts with forceHardReset := some false } mainFile fsExists ∧
    (electronReloadInit glob { opts with forceHardReset := some true } mainFile
        fsExists).general.closed = false ∧
    (electronReloadInit glob { opts with forceHardReset := some true } mainFile
        fsExists).hard = none ∧
    (electronReloadInit glob { opts with forceHardReset := some true } mainFile
        fsExists).thrown = none := by
  simp [electronReloadInit, he]

/-- Witness for C9 at concrete inputs. -/
theorem C9_force_without_exec_witness :
    electronReloadInit "src"
        { (⟨none, none, none, none, none, none⟩ : Options) with forceHardReset := some true }
        "/m" (fun _ => true)
      = electronReloadInit "src"
          { (⟨none, none, none, none, none, none⟩ : Options) with forceHardReset := some false }
          "/m" (fun _ => true) ∧
    (electronReloadInit "src"
        { (⟨none, none, none, none, none, none⟩ : Options) with forceHardReset := some true }
        "/m" (fun _ => true)).general.closed = false ∧
    (electronReloadInit "src"
        { (⟨none, none, none, none, none, none⟩ : Options) with forceHardReset := some true }
        "/m" (fun _ => true)).hard = none ∧
    (electronReloadInit "src"
        { (⟨none, none, none, none, none, none⟩ : Options) with forceHardReset := some true }
        "/m" (fun _ => true)).thrown = none :=
  C9_force_without_exec "src" "/m" _ _ rfl

/-- C10: when the options carry an `ignored` key, the user-supplied list
replaces the default entirely — `Object.assign` overwrites, it does not
merge — so the general watcher and (when created) the hard watcher carry
exactly the user list, with none of the default exclusions. -/
theorem C10_ignored_override (glob mainFile : String) (opts : Options)
    (fsExists : String → Bool) (l : List Matcher) (hi : opts.ignored = some l) :
    (electronReloadInit glob opts mainFile fsExists).general.ignored = l ∧
    hardIgnoredIs (electronReloadInit glob opts mainFile fsExists).hard l = true := by
  cases he : opts.electron with
  | none => simp [electronReloadInit, he, hi, hardIgnoredIs]
  | some exe =>
    by_cases hfs : fsExists exe = true
    · by_cases hforce : opts.forceHardReset = some true
      · simp [electronReloadInit, he, hi, hfs, hforce, hardIgnoredIs]
      · simp [electronReloadInit, he, hi, hfs, hforce, hardIgnoredIs]
    · simp only [Bool.not_eq_true] at hfs
      simp [electronReloadInit, he, hi, hfs, hardIgnoredIs]

/-- Witness for C10 at concrete inputs: one user matcher, executable
present, so the hard watcher exists and carries exactly the user list. -/
theorem C10_ignored_override_witness :
    (electronReloadInit "src"
        ⟨some "/e", none, none, none, none, some [Matcher.exactPath "only.js"]⟩
        "/m" (fun _ => true)).general.ignored = [Matcher.exactPath "only.js"] ∧
    hardIgnoredIs (electronReloadInit "src"
        ⟨some "/e", none, none, none, none, some [Matcher.exactPath "only.js"]⟩
        "/m" (fun _ => true)).hard [Matcher.exactPath "only.js"] = true :=
  C10_ignored_override "src" "/m" _ _ [Matcher.exactPath "only.js"] rfl

/-- C4: with an existing executable and `forceHardReset = true`, after
initialization the general (soft-reset) watcher is closed, the hard
watcher watches the entry file AND the full general glob, and no event
sequence whatsoever produces a soft-reload sweep — `reloadAll` never
runs during the session. -/
theorem C4_force_hard_reset (glob mainFile appPath exe : String) (opts : Options)
    (fsExists : String → Bool) (gm : String → String → Bool)
    (he : opts.electron = some exe) (hfs : fsExists exe = true)
    (hforce : opts.forceHardReset = some true) (events : List Event) :
    (electronReloadInit glob opts mainFile fsExists).general.closed = true ∧
    hardPathsAre (electronReloadInit glob opts mainFile fsExists).hard
        [mainFile, glob] = true ∧
    (runEvents gm (mkSession (electronReloadInit glob opts mainFile fsExists) appPath)
        events).2.reloads = [] := by
  have hinit : electronReloadInit glob opts mainFile fsExists =
      ⟨none, ⟨[glob], opts.ignored.getD (generalDefaultIgnored mainFile), true⟩,
       some ⟨[mainFile, glob], opts.ignored.getD hardDefaultIgnored, true, exe,
             opts.hardResetMethod, opts.electronArgv, opts.appArgv⟩⟩ := by
    simp [electronReloadInit, he, hfs, hforce]
  rw [hinit]
  refine ⟨rfl, ?_, ?_⟩
  · simp [hardPathsAre]
  · exact runEvents_reloads_closed gm events _ rfl

/-- Witness for C4 at concrete inputs. -/
theorem C4_force_hard_reset_witness :
    (electronReloadInit "src" ⟨some "/e", none, none, none, some true, none⟩
        "/m" (fun _ => true)).general.closed = true ∧
    hardPathsAre (electronReloadInit "src" ⟨some "/e", none, none, none, some true, none⟩
        "/m" (fun _ => true)).hard ["/m", "src"] = true ∧
    (runEvents (fun _ _ => true)
        (mkSession (electronReloadInit "src" ⟨some "/e", none, none, none, some true, none⟩
            "/m" (fun _ => true)) "/app")
        [Event.winCreated 1, Event.change "a.js", Event.change "b.js"]).2.reloads = [] :=
  C4_force_hard_reset "src" "/m" "/app" "/e" _ _ _ rfl rfl rfl _

/-- C5: with an existing executable and `forceHardReset = false`, the
one-shot hard subscription fires exactly once: the first change event at
the entry file path produces exactly one spawn, and after that step no
event sequence of any kind produces a further spawn from this session. -/
theorem C5_entry_one_shot (glob mainFile appPath exe : String) (opts : Options)
    (fsExists : String → Bool) (gm : String → String → Bool)
    (he : opts.electron = some exe) (hfs : fsExists exe = true)
    (hforce : opts.forceHardReset = some false)
    (hgm : gm mainFile mainFile = true)
    (hign : anymatch (opts.ignored.getD hardDefaultIgnored) mainFile = false)
    (events : List Event) :
    (step gm (mkSession (electronReloadInit glob opts mainFile fsExists) appPath)
        (Event.change mainFile)).2.spawns.length = 1 ∧
    (runEvents gm
        (step gm (mkSession (electronReloadInit glob opts mainFile fsExists) appPath)
            (Event.change mainFile)).1
        events).2.spawns = [] := by
  have hinit : electronReloadInit glob opts mainFile fsExists =
      ⟨none, ⟨[glob], opts.ignored.getD (generalDefaultIgnored mainFile), false⟩,
       some ⟨[mainFile], opts.ignored.getD hardDefaultIgnored, true, exe,
             opts.hardResetMethod, opts.electronArgv, opts.appArgv⟩⟩ := by
    simp [electronReloadInit, he, hfs, hforce]
  have hfires : hwFires gm
      ⟨[mainFile], opts.ignored.getD hardDefaultIgnored, true, exe,
       opts.hardResetMethod, opts.electronArgv, opts.appArgv⟩ mainFile = true := by
    simp [hwFires, hgm, hign]
  rw [hinit]
  constructor
  · simp [mkSession, step, deliverChange, hfires]
  · apply runEvents_spawns_unarmed
    simp [mkSession, step, deliverChange, hfires, sessionArmed, disarm]

/-- Witness for C5 at concrete inputs. -/
theorem C5_entry_one_shot_witness :
    (fun a b => a == b) "/m" "/m" = true ∧
    anymatch ((⟨some "/e", none, none, none, some false, none⟩ :
        Options).ignored.getD hardDefaultIgnored) "/m" = false ∧
    ((step (fun a b => a == b)
        (mkSession (electronReloadInit "src" ⟨some "/e", none, none, none, some false, none⟩
            "/m" (fun _ => true)) "/app")
        (Event.change "/m")).2.spawns.length = 1 ∧
    (runEvents (fun a b => a == b)
        (step (fun a b => a == b)
            (mkSession (electronReloadInit "src"
                ⟨some "/e", none, none, none, some false, none⟩
                "/m" (fun _ => true)) "/app")
            (Event.change "/m")).1
        [Event.change "/m", Event.change "x.js", Event.winCreated 2]).2.spawns = []) :=
  ⟨by decide, by decide,
   C5_entry_one_shot "src" "/m" "/app" "/e" _ _ _ rfl rfl rfl (by decide) (by decide) _⟩

/-- C8: without an executable no hard watcher exists and nothing is
thrown; a change event at a path matching the glob and no ignore entry
produces exactly one soft-reload sweep over the current live window set,
and zero spawns. -/
theorem C8_soft_only (glob mainFile appPath p : String) (opts : Options)
    (fsExists : String → Bool) (gm : String → String → Bool) (ws : List Nat)
    (he : opts.electron = none)
    (hmatch : gm glob p = true)
    (hign : anymatch (opts.ignored.getD (generalDefaultIgnored mainFile)) p = false) :
    (electronReloadInit glob opts mainFile fsExists).hard = none ∧
    (electronReloadInit glob opts mainFile fsExists).thrown = none ∧
    (step gm
        { mkSession (electronReloadInit glob opts mainFile fsExists) appPath
            with windows := ws }
        (Event.change p)).2.reloads = [ws] ∧
    (step gm
        { mkSession (electronReloadInit glob opts mainFile fsExists) appPath
            with windows := ws }
        (Event.change p)).2.spawns = [] := by
  have hinit : electronReloadInit glob opts mainFile fsExists =
      ⟨none, ⟨[glob], opts.ignored.getD (generalDefaultIgnored mainFile), false⟩,
       none⟩ := by
    simp [electronReloadInit, he]
  have hfires : gwFires gm
      ⟨[glob], opts.ignored.getD (generalDefaultIgnored mainFile), false⟩ p = true := by
    simp [gwFires, hmatch, hign]
  rw [hinit]
  refine ⟨rfl, rfl, ?_, ?_⟩
  · simp [mkSession, step, deliverChange, hfires]
  · simp [mkSession, step, deliverChange]

/-- Witness for C8 at concrete inputs: two live windows, a matching
change, one sweep reloading both, no spawn. -/
theorem C8_soft_only_witness :
    (fun _ _ => true) "src" "a.js" = true ∧
    anymatch ((⟨none, none, none, none, none, none⟩ :
        Options).ignored.getD (generalDefaultIgnored "/m")) "a.js" = false ∧
    ((electronReloadInit "src" ⟨none, none, none, none, none, none⟩
        "/m" (fun _ => true)).hard = none ∧
    (electronReloadInit "src" ⟨none, none, none, none, none, none⟩
        "/m" (fun _ => true)).thrown = none ∧
    (step (fun _ _ => true)
        { mkSession (electronReloadInit "src" ⟨none, none, none, none, none, none⟩
            "/m" (fun _ => true)) "/app" with windows := [1, 2] }
        (Event.change "a.js")).2.reloads = [[1, 2]] ∧
    (step (fun _ _ => true)
        { mkSession (electronReloadInit "src" ⟨none, none, none, none, none, none⟩
            "/m" (fun _ => true)) "/app" with windows := [1, 2] }
        (Event.change "a.js")).2.spawns = []) :=
  ⟨by decide, by decide,
   C8_soft_only "src" "/m" "/app" "a.js" _ _ _ [1, 2] rfl (by decide) (by decide)⟩

/-- A list is a prefix of itself followed by anything. -/
theorem isPref_append (s post : List Char) : isPref s (s ++ post) = true := by
  induction s with
  | nil => rfl
  | cons a as ih => simp [isPref, ih]

/-- A prefix occurs as a substring. -/
theorem containsSeq_of_isPref (pat l : List Char) (h : isPref pat l = true) :
    containsSeq pat l = true := by
  cases l with
  | nil => simpa [containsSeq] using h
  | cons c rest => simp [containsSeq, h]

/-- Substring occurrence is stable under prepending one character. -/
theorem containsSeq_cons (pat l : List Char) (c : Char)
    (h : containsSeq pat l = true) : containsSeq pat (c :: l) = true := by
  simp [containsSeq, h]

/-- Substring occurrence is stable under prepending any list. -/
theorem containsSeq_append_left (pat l : List Char) (h : containsSeq pat l = true)
    (pre : List Char) : containsSeq pat (pre ++ l) = true := by
  induction pre with
  | nil => simpa using h
  | cons a as ih =>
    rw [List.cons_append]
    exact containsSeq_cons pat (as ++ l) a ih

/-- `splitSegs` never returns the empty list of segments. -/
theorem splitSegs_ne_nil (l : List Char) : splitSegs l ≠ [] := by
  cases l with
  | nil => simp [splitSegs]
  | cons c rest =>
    by_cases hc : isSep c = true
    · simp [splitSegs, hc]
    · cases hs : splitSegs rest with
      | nil => simp [splitSegs, hc, hs]
      | cons s0 t0 => simp [splitSegs, hc, hs]

/-- The first segment is a prefix of the character list. -/
theorem splitSegs_head_pref (l : List Char) :
    ∀ s t, splitSegs l = s :: t → ∃ r, l = s ++ r := by
  induction l with
  | nil =>
    intro s t h
    simp [splitSegs] at h
    exact ⟨[], by simp [← h.1]⟩
  | cons c rest ih =>
    intro s t h
    by_cases hc : isSep c = true
    · simp [splitSegs, hc] at h
      exact ⟨c :: rest, by simp [← h.1]⟩
    · cases hs : splitSegs rest with
      | nil => exact absurd hs (splitSegs_ne_nil rest)
      | cons s0 t0 =>
        simp [splitSegs, hc, hs] at h
        obtain ⟨r, hr⟩ := ih s0 t0 hs
        exact ⟨r, by simp [← h.1, hr]⟩

/-- Every segment occurs contiguously in the character list. -/
theorem splitSegs_mem_infix (l : List Char) :
    ∀ s, s ∈ splitSegs l → ∃ pre post, l = pre ++ (s ++ post) := by
  induction l with
  | nil =>
    intro s hs
    simp [splitSegs] at hs
    exact ⟨[], [], by simp [hs]⟩
  | cons c rest ih =>
    intro s hs
    by_cases hc : isSep c = true
    · simp [splitSegs, hc] at hs
      rcases hs with h1 | h2
      · exact ⟨[], c :: rest, by simp [h1]⟩
      · obtain ⟨pre, post, hp⟩ := ih s h2
        exact ⟨c :: pre, post, by simp [hp]⟩
    · cases hsp : splitSegs rest with
      | nil => exact absurd hsp (splitSegs_ne_nil rest)
      | cons s0 t0 =>
        simp [splitSegs, hc, hsp] at hs
        rcases hs with h1 | h2
        · obtain ⟨r, hr⟩ := splitSegs_head_pref rest s0 t0 hsp
          exact ⟨[], r, by simp [h1, hr]⟩
        · have hmem : s ∈ splitSegs rest := by
            rw [hsp]; exact List.mem_cons_of_mem _ h2
          obtain ⟨pre, post, hp⟩ := ih s hmem
          exact ⟨c :: pre, post, by simp [hp]⟩

/-- C7 (counterexample): the relative path `.env` consists of one
dot-prefixed segment, yet the default general `ignored` list does not
exclude it — the regex `[/\\]\.` only matches a dot PRECEDED by a
separator, and a leading dot segment has none.  This refutes the claim
that every path containing a dot-prefixed segment is excluded. -/
theorem C7_counterexample :
    specDotPrefixedSegment ".env" = true ∧
    anymatch (generalDefaultIgnored "/app/index.js") ".env" = false := by decide

/-- C7 (amended): the general watch set excludes a candidate path if it
has a whole segment named `node_modules`, if it contains a dot-prefixed
segment preceded by a path separator (a leading dot segment of a
relative path is NOT excluded), or if it equals the entry file path. -/
theorem C7_general_ignore (p mainFile : String)
    (h : specNodeModulesSegment p = true ∨ hasSlashDot p.data = true ∨ p = mainFile) :
    anymatch (generalDefaultIgnored mainFile) p = true := by
  rcases h with h | h | h
  · have hsub : containsSeq "node_modules".data p.data = true := by
      simp only [specNodeModulesSegment, List.any_eq_true, beq_iff_eq] at h
      obtain ⟨s, hs, hseq⟩ := h
      obtain ⟨pre, post, hp⟩ := splitSegs_mem_infix p.data s hs
      subst hseq
      rw [hp]
      exact containsSeq_append_left _ _
        (containsSeq_of_isPref _ _ (isPref_append _ post)) pre
    simp [anymatch, generalDefaultIgnored, matcherTest, testIgnoredPaths, hsub]
  · simp [anymatch, generalDefaultIgnored, matcherTest, testIgnoredPaths, h]
  · subst h
    simp [anymatch, generalDefaultIgnored, matcherTest]

/-- Witness for C7 at concrete inputs: a path with a `node_modules`
segment is excluded by the default general ignore list. -/
theorem C7_general_ignore_witness :
    specNodeModulesSegment "src/node_modules/x.js" = true ∧
    anymatch (generalDefaultIgnored "/app/index.js") "src/node_modules/x.js" = true :=
  ⟨by decide, C7_general_ignore _ _ (Or.inl (by decide))⟩

end ElectronReload
